import Mathlib

/-!
Shallow embedding of the filtering-and-aggregation pipeline of
`src/Dashboard.py` (a Streamlit sales dashboard).  Rows of the loaded
table become the structure `Row`; each stage of `update_dashboard`
becomes an explicit Lean function over `List Row`.  Numeric columns are
modelled as rational numbers; pandas `nunique` becomes `Finset.card`
over the `toFinset` of the projected column.
-/

/-- Calendar months, the 12 canonical abbreviations used in the
`month` column (`all_months` at line 53 of the source). -/
inductive Month
  | jan | feb | mar | apr | may | jun | jul | aug | sep | oct | nov | dec
deriving DecidableEq, Repr

/-- Position of a month in the canonical calendar order
(`all_months.index(x)` in the source). -/
def Month.idx : Month → Nat
  | .jan => 0 | .feb => 1 | .mar => 2 | .apr => 3 | .may => 4 | .jun => 5
  | .jul => 6 | .aug => 7 | .sep => 8 | .oct => 9 | .nov => 10 | .dec => 11

/-- String form of a month, as stored in the `month` column. -/
def Month.str : Month → String
  | .jan => "Jan" | .feb => "Feb" | .mar => "Mar" | .apr => "Apr"
  | .may => "May" | .jun => "Jun" | .jul => "Jul" | .aug => "Aug"
  | .sep => "Sep" | .oct => "Oct" | .nov => "Nov" | .dec => "Dec"

/-- The list `all_months` of the source (line 53), in calendar order. -/
def allMonths : List Month :=
  [.jan, .feb, .mar, .apr, .may, .jun, .jul, .aug, .sep, .oct, .nov, .dec]

/-- Quarter labels, the keys of `quarter_map` (lines 62-67). -/
inductive Quarter
  | q1 | q2 | q3 | q4
deriving DecidableEq, Repr

/-- The mapping `quarter_map` of the source: each quarter's three
constituent months. -/
def quarterMonths : Quarter → List Month
  | .q1 => [.jan, .feb, .mar]
  | .q2 => [.apr, .may, .jun]
  | .q3 => [.jul, .aug, .sep]
  | .q4 => [.oct, .nov, .dec]

/-- The quarter containing a month (the `next(q for q, months in
quarter_map.items() if x in months)` lookup at line 232; total because
every `Month` value is one of the 12 canonical months). -/
def quarterOf (m : Month) : Quarter :=
  if m ∈ quarterMonths .q1 then .q1
  else if m ∈ quarterMonths .q2 then .q2
  else if m ∈ quarterMonths .q3 then .q3
  else .q4

/-- One row of the loaded dataset, with the column schema the source
reads (`customer_code`, ..., `payment_type`, `total`, `weight`).
`total` and `weight` are the two candidate main variables. -/
structure Row where
  customer_code : String
  customer_name : String
  customer_category : String
  salesman : String
  item_code : String
  item_description : String
  item_category : String
  area : String
  month : Month
  payment_type : String
  total : ℚ
  weight : ℚ
deriving DecidableEq, Repr

/-- Months present in a dataset, in calendar order: the source's
`sorted(df['month'].unique(), key=lambda x: all_months.index(x))`
(lines 56 and 204). -/
def uniqueMonths (df : List Row) : List Month :=
  allMonths.filter (fun m => df.any (fun r => r.month == m))

/-- Quarters having at least one row, in order Q1..Q4 (the groupby keys
of `sales_by_quarter`, lines 231-233; pandas sorts the string keys
Q1 < Q2 < Q3 < Q4). -/
def quartersPresent (df : List Row) : List Quarter :=
  [Quarter.q1, .q2, .q3, .q4].filter (fun q => df.any (fun r => quarterOf r.month == q))

/-- The up-to-8 optional equality selections of the sidebar; `none`
models the `"None"` sentinel. -/
structure Selections where
  area : Option String
  month : Option Month
  quarter : Option Quarter
  customer_category : Option String
  salesman : Option String
  item_category : Option String
  customer_name : Option String
  item_description : Option String
deriving DecidableEq, Repr

/-- The all-unset selection. -/
def noSelections : Selections :=
  ⟨none, none, none, none, none, none, none, none⟩

/-- Selections with only month and/or quarter set. -/
def selMQ (m : Option Month) (q : Option Quarter) : Selections :=
  ⟨none, m, q, none, none, none, none, none⟩

/-- The month/quarter branch of the attribute filter chain
(lines 176-187 of `update_dashboard`).  Returns the reduced dataset and
whether the inconsistent-selection warning was emitted (`st.warning`
at line 183). -/
def monthQuarterFilter (df : List Row) (m? : Option Month) (q? : Option Quarter) :
    List Row × Bool :=
  match m?, q? with
  | some m, none => (df.filter (fun r => r.month == m), false)
  | none, some q => (df.filter (fun r => (quarterMonths q).contains r.month), false)
  | some m, some q =>
      if (quarterMonths q).contains m then
        (df.filter (fun r => r.month == m), false)
      else
        (df.filter (fun r => (quarterMonths q).contains r.month), true)
  | none, none => (df, false)

/-- The attribute filter chain of `update_dashboard` (lines 173-198):
area, then the month/quarter interaction, then the five remaining
equality filters.  Returns the filtered dataset and the month/quarter
warning flag. -/
def applyFilters (df : List Row) (s : Selections) : List Row × Bool :=
  let d1 := match s.area with
    | none => df
    | some a => df.filter (fun r => r.area == a)
  let step := monthQuarterFilter d1 s.month s.quarter
  let d2 := step.1
  let d3 := match s.customer_category with
    | none => d2
    | some c => d2.filter (fun r => r.customer_category == c)
  let d4 := match s.salesman with
    | none => d3
    | some c => d3.filter (fun r => r.salesman == c)
  let d5 := match s.item_category with
    | none => d4
    | some c => d4.filter (fun r => r.item_category == c)
  let d6 := match s.customer_name with
    | none => d5
    | some c => d5.filter (fun r => r.customer_name == c)
  let d7 := match s.item_description with
    | none => d6
    | some c => d6.filter (fun r => r.item_description == c)
  (d7, step.2)

/-- Regex abstract syntax for the sublanguage of Python `re` modelled
here: literal characters, `.`, alternation, concatenation and the
postfix repeaters.  `emp` is the regex matching nothing (used by the
derivative matcher). -/
inductive Regex
  | emp
  | eps
  | chr (c : Char)
  | dot
  | alt (a b : Regex)
  | cat (a b : Regex)
  | star (a : Regex)
deriving DecidableEq, Repr

/-- Whether a regex matches the empty string. -/
def nullable : Regex → Bool
  | .emp => false
  | .eps => true
  | .chr _ => false
  | .dot => false
  | .alt a b => nullable a || nullable b
  | .cat a b => nullable a && nullable b
  | .star _ => true

/-- Brzozowski derivative of a regex by one character. -/
def rderiv : Regex → Char → Regex
  | .emp, _ => .emp
  | .eps, _ => .emp
  | .chr c, x => if x = c then .eps else .emp
  | .dot, _ => .eps
  | .alt a b, x => .alt (rderiv a x) (rderiv b x)
  | .cat a b, x =>
      if nullable a then .alt (.cat (rderiv a x) b) (rderiv b x)
      else .cat (rderiv a x) b
  | .star a, x => .cat (rderiv a x) (.star a)

/-- Whether the regex matches some (possibly empty) leading segment of
the character list. -/
def matchPref (r : Regex) : List Char → Bool
  | [] => nullable r
  | c :: cs => nullable r || matchPref (rderiv r c) cs

/-- Python `re.search` semantics: the regex matches somewhere inside
the character list. -/
def rsearch (r : Regex) : List Char → Bool
  | [] => nullable r
  | c :: cs => matchPref r (c :: cs) || rsearch r cs

/-- Helper of the pattern parser: after one postfix repeater, a second
repeater immediately following is the `re.error` "multiple repeat". -/
def afterRepeat (r : Regex) (rest : List Char) : Except String (Regex × List Char) :=
  match rest with
  | c :: _ =>
      if c = '*' || c = '+' || c = '?' then .error "multiple repeat"
      else .ok (r, rest)
  | [] => .ok (r, rest)

mutual

/-- Recursive-descent pattern parser, atom level: group, `.` or a
literal character.  Metacharacters outside the modelled sublanguage
are rejected.  Fuel makes the mutual recursion structural; the
top-level caller supplies fuel exceeding any possible parse depth. -/
def parseAtom : Nat → List Char → Except String (Regex × List Char)
  | 0, _ => .error "fuel exhausted"
  | _ + 1, [] => .error "internal: atom on empty input"
  | fuel + 1, c :: rest =>
    if c = '(' then
      match parseAlt fuel rest with
      | .error e => .error e
      | .ok (r, rest2) =>
        match rest2 with
        | ')' :: rest3 => .ok (r, rest3)
        | _ => .error "missing ), unterminated subpattern"
    else if c = '*' || c = '+' || c = '?' then .error "nothing to repeat"
    else if c = '.' then .ok (.dot, rest)
    else if c = '[' || c = ']' || c = '\\' || c = '^' || c = '$'
         || c = '\x7b' || c = '\x7d' then
      .error "unsupported construct"
    else .ok (.chr c, rest)

/-- Pattern parser, repetition level: an atom followed by at most one
of the postfix repeaters. -/
def parseRep : Nat → List Char → Except String (Regex × List Char)
  | 0, _ => .error "fuel exhausted"
  | fuel + 1, cs =>
    match parseAtom fuel cs with
    | .error e => .error e
    | .ok (r, rest) =>
      match rest with
      | '*' :: rest2 => afterRepeat (.star r) rest2
      | '+' :: rest2 => afterRepeat (.cat r (.star r)) rest2
      | '?' :: rest2 => afterRepeat (.alt .eps r) rest2
      | _ => .ok (r, rest)

/-- Pattern parser, concatenation level: a possibly empty sequence of
repetitions, stopping at `)` or `|` or the end of input. -/
def parseCat : Nat → List Char → Except String (Regex × List Char)
  | 0, _ => .error "fuel exhausted"
  | fuel + 1, cs =>
    match cs with
    | [] => .ok (.eps, [])
    | c :: _ =>
      if c = ')' || c = '|' then .ok (.eps, cs)
      else
        match parseRep fuel cs with
        | .error e => .error e
        | .ok (r, rest) =>
          match parseCat fuel rest with
          | .error e => .error e
          | .ok (r2, rest2) => .ok (.cat r r2, rest2)

/-- Pattern parser, alternation level. -/
def parseAlt : Nat → List Char → Except String (Regex × List Char)
  | 0, _ => .error "fuel exhausted"
  | fuel + 1, cs =>
    match parseCat fuel cs with
    | .error e => .error e
    | .ok (r, rest) =>
      match rest with
      | '|' :: rest2 =>
        match parseAlt fuel rest2 with
        | .error e => .error e
        | .ok (r2, rest3) => .ok (.alt r r2, rest3)
      | _ => .ok (r, rest)

end

/-- Compilation of a search pattern, the `re.compile` step performed
inside pandas `str.contains(pat, regex=True)`: parse the whole string,
rejecting a dangling `)`. -/
def compileRegex (s : String) : Except String Regex :=
  match parseAlt (4 * s.toList.length + 8) s.toList with
  | .error e => .error e
  | .ok (r, rest) =>
    match rest with
    | [] => .ok r
    | _ => .error "unbalanced parenthesis"

/-- Python `str.lower()`, per character (the data here is ASCII). -/
def strLower (s : String) : String :=
  ⟨s.data.map Char.toLower⟩

/-- The fixed searchable-column set of `apply_master_filter`
(`search_columns`, lines 76-77), as the string values of one row. -/
def searchFields (r : Row) : List String :=
  [r.customer_code, r.customer_name, r.customer_category, r.salesman,
   r.item_code, r.item_description, r.item_category, r.month.str, r.area]

/-- The function `apply_master_filter` (lines 69-85): empty search
term returns the dataset with `found = true`; otherwise the
lower-cased term is compiled as a regex (raising `re.error` out of the
function on an invalid pattern, modelled as `Except.error`) and a row
matches when any searchable column's lower-cased string contains a
match.  Returns the matched subset and `found = (subset nonempty)`. -/
def applyMasterFilter (df : List Row) (term : String) :
    Except String (List Row × Bool) :=
  if term = "" then .ok (df, true)
  else
    match compileRegex (strLower term) with
    | .error e => .error e
    | .ok r =>
        let fd := df.filter (fun row =>
          (searchFields row).any (fun s => rsearch r (strLower s).toList))
        .ok (fd, decide (0 < fd.length))

/-- The filtering part of `update_dashboard` (lines 167-201): master
search, the early return `(None, False)` on a search miss (lines
169-171), the attribute filter chain, and the early return
`(None, False)` on a filter miss (lines 200-201).  `none` stands for
the `None` dashboard bundle; the `Bool` is the returned
`search_found` value. -/
def filterPipeline (df : List Row) (s : Selections) (term : String) :
    Except String (Option (List Row) × Bool) :=
  match applyMasterFilter df term with
  | .error e => .error e
  | .ok (fd, found) =>
    if !found || fd.isEmpty then .ok (none, false)
    else
      let step := applyFilters fd s
      if step.1.isEmpty then .ok (none, false)
      else .ok (some step.1, true)

/-- pandas `filtered_data['customer_code'].nunique()` (lines 208/211):
number of distinct customer codes. -/
def totalCustomers (df : List Row) : Nat :=
  ((df.map (fun r => r.customer_code)).toFinset).card

/-- Distinct customers having a row with `payment_type == 'Cash'`
(line 213). -/
def cashCustomers (df : List Row) : Nat :=
  totalCustomers (df.filter (fun r => r.payment_type == "Cash"))

/-- Distinct customers having a row with `payment_type == 'Credit'`
(line 214). -/
def creditCustomers (df : List Row) : Nat :=
  totalCustomers (df.filter (fun r => r.payment_type == "Credit"))

/-- The payment-type summary block (lines 211-219): counts and
fractions, all zero when there are no customers.  Components:
(Cash_count, Credit_count, Cash_percentage, Credit_percentage). -/
def paymentSummary (df : List Row) : Nat × Nat × ℚ × ℚ :=
  let t := totalCustomers df
  if 0 < t then
    (cashCustomers df, creditCustomers df,
     (cashCustomers df : ℚ) / t, (creditCustomers df : ℚ) / t)
  else (0, 0, 0, 0)

/-- The `Cash_percentage` scalar of the summary block. -/
def cashPercentage (df : List Row) : ℚ := (paymentSummary df).2.2.1

/-- The `Credit_percentage` scalar of the summary block. -/
def creditPercentage (df : List Row) : ℚ := (paymentSummary df).2.2.2

/-- Sum of a numeric column over the rows satisfying a predicate: the
building block of every pandas `groupby(...)[v].sum()` cell. -/
def sumWhere (df : List Row) (p : Row → Bool) (v : Row → ℚ) : ℚ :=
  ((df.filter p).map v).sum

/-- Distinct area keys of `filtered_data.groupby('area')` (line 223);
pandas sorts group keys, which the claims never depend on, so the
distinct keys are kept in first-occurrence order. -/
def areaKeys (df : List Row) : List String :=
  (df.map (fun r => r.area)).dedup

/-- The `sales_by_area` grouping (line 223): main-variable sum per
distinct area. -/
def salesByArea (df : List Row) (v : Row → ℚ) : List (String × ℚ) :=
  (areaKeys df).map (fun a => (a, sumWhere df (fun r => r.area == a) v))

/-- The `sales_by_month` grouping (lines 227-229): main-variable sum
per month, restricted to and ordered by the months present. -/
def salesByMonth (df : List Row) (v : Row → ℚ) : List (Month × ℚ) :=
  (uniqueMonths df).map (fun m => (m, sumWhere df (fun r => r.month == m) v))

/-- The month column of the Monthly KPI table (lines 427-434): the
same per-month sums as `salesByMonth`, values only. -/
def monthlySales (df : List Row) (v : Row → ℚ) : List ℚ :=
  (uniqueMonths df).map (fun m => sumWhere df (fun r => r.month == m) v)

/-- The `sales_by_quarter` grouping (lines 231-233): each row's month
is mapped through the quarter lookup before grouping. -/
def salesByQuarter (df : List Row) (v : Row → ℚ) : List (Quarter × ℚ) :=
  (quartersPresent df).map (fun q => (q, sumWhere df (fun r => quarterOf r.month == q) v))

/-- Distinct (salesman, area) pairs of the two-key grouping at
line 304, in first-occurrence order. -/
def salesmanAreaKeys (df : List Row) : List (String × String) :=
  (df.map (fun r => (r.salesman, r.area))).dedup

/-- The `sales_by_salesman_area` grouping (line 304). -/
def salesBySalesmanArea (df : List Row) (v : Row → ℚ) :
    List ((String × String) × ℚ) :=
  (salesmanAreaKeys df).map
    (fun k => (k, sumWhere df (fun r => r.salesman == k.1 && r.area == k.2) v))

/-- Distinct salesmen, in first-occurrence order. -/
def salesmen (df : List Row) : List String :=
  (df.map (fun r => r.salesman)).dedup

/-- One salesman's main-variable total summed across areas
(line 305). -/
def salesmanTotal (df : List Row) (v : Row → ℚ) (s : String) : ℚ :=
  sumWhere df (fun r => r.salesman == s) v

/-- The `salesman_order` of line 305: salesmen sorted by their totals
descending (`sort_values(ascending=False)`). -/
def salesmanOrder (df : List Row) (v : Row → ℚ) : List String :=
  (salesmen df).insertionSort (fun a b => salesmanTotal df v b ≤ salesmanTotal df v a)

/-- One pivot row's total across all months present (the helper
`total` column summed at lines 327/361/395); since every row's month
is among the months present, it is the plain sum over rows with this
key. -/
def rowTotal (df : List Row) (key : Row → String) (v : Row → ℚ) (k : String) : ℚ :=
  sumWhere df (fun r => key r == k) v

/-- Distinct pivot row keys (`pivot_table(index=key, ...)`), in
first-occurrence order; pandas sorts the index, which no claim
depends on. -/
def pivotKeys (df : List Row) (key : Row → String) : List String :=
  (df.map key).dedup

/-- The pivot row order after `sort_values('total', ascending=True)`
(lines 328/362/396): keys sorted ascending by their row totals. -/
def pivotOrder (df : List Row) (key : Row → String) (v : Row → ℚ) : List String :=
  (pivotKeys df key).insertionSort (fun a b => rowTotal df key v a ≤ rowTotal df key v b)

/-- Rows of one month (`filtered_data[filtered_data['month'] == month]`,
lines 441/464). -/
def monthRows (df : List Row) (m : Month) : List Row :=
  df.filter (fun r => r.month == m)

/-- The set `month_customers` of line 442. -/
def monthCustomers (df : List Row) (m : Month) : Finset String :=
  ((monthRows df m).map (fun r => r.customer_code)).toFinset

/-- The set `month_combinations` of line 465. -/
def monthPairs (df : List Row) (m : Month) : Finset (String × String) :=
  ((monthRows df m).map (fun r => (r.customer_code, r.item_code))).toFinset

/-- The new-customer loop of lines 437-454: per month in calendar
order, the count of customers not in the running `all_customers`
set, which is then enlarged by the month's customers. -/
def newCustomersAux (df : List Row) : List Month → Finset String → List Nat
  | [], _ => []
  | m :: ms, seen =>
      (monthCustomers df m \ seen).card ::
        newCustomersAux df ms (seen ∪ monthCustomers df m)

/-- The `New Customer` KPI column (line 456). -/
def newCustomers (df : List Row) : List Nat :=
  newCustomersAux df (uniqueMonths df) ∅

/-- The newly-listed-items loop of lines 458-478: identical novelty
logic over (customer_code, item_code) pairs. -/
def newlyListedAux (df : List Row) : List Month → Finset (String × String) → List Nat
  | [], _ => []
  | m :: ms, seen =>
      (monthPairs df m \ seen).card ::
        newlyListedAux df ms (seen ∪ monthPairs df m)

/-- The `Newly Listed Items` KPI column (line 480). -/
def newlyListed (df : List Row) : List Nat :=
  newlyListedAux df (uniqueMonths df) ∅

/-- One cell of the `M.Change%` column.  pandas `pct_change` computes
`v / prev - 1` in floating point: a zero previous value gives +inf,
-inf or NaN (here `blank`, the value `create_heatmap_table` renders as
an empty string) depending on the sign of `v`. -/
inductive PctCell
  | blank
  | posInf
  | negInf
  | val (q : ℚ)
deriving DecidableEq, Repr

/-- One `pct_change() * 100` step against the previous value. -/
def pctStep (prev v : ℚ) : PctCell :=
  if prev = 0 then
    if 0 < v then .posInf else if v < 0 then .negInf else .blank
  else .val ((v - prev) / prev * 100)

/-- Tail of `pct_change() * 100`, carrying the previous value. -/
def pctChangeGo (prev : ℚ) : List ℚ → List PctCell
  | [] => []
  | v :: rest => pctStep prev v :: pctChangeGo v rest

/-- pandas `series.pct_change() * 100`: first entry NaN (`blank`),
then each entry against its predecessor. -/
def pctChangeList (vs : List ℚ) : List PctCell :=
  match vs with
  | [] => []
  | v :: rest => .blank :: pctChangeGo v rest

/-- The `M.Change%` column (lines 487-490): `pct_change() * 100` when
the KPI table has more than one row, otherwise the scalar 0 broadcast
to every row. -/
def mChangeCol (vs : List ℚ) : List PctCell :=
  if 1 < vs.length then pctChangeList vs
  else vs.map (fun _ => .val 0)

/-- Running sums with an accumulator (pandas `cumsum`). -/
def cumsumFrom (acc : ℚ) : List ℚ → List ℚ
  | [] => []
  | v :: rest => (acc + v) :: cumsumFrom (acc + v) rest

/-- pandas `series.cumsum()`. -/
def cumsum (vs : List ℚ) : List ℚ :=
  cumsumFrom 0 vs

/-- The `Progress%` column (lines 492-496): cumulative sums divided by
1.5 times the grand total, as a percentage; the scalar 0 broadcast
when the grand total is not positive. -/
def progressCol (vs : List ℚ) : List ℚ :=
  if 0 < vs.sum then (cumsum vs).map (fun c => c / (vs.sum * (3 / 2)) * 100)
  else vs.map (fun _ => 0)

/-- Helper building a `Row` positionally. -/
def mkRow (cc cn ctg sm ic idesc icat ar : String) (m : Month) (pt : String)
    (t w : ℚ) : Row :=
  ⟨cc, cn, ctg, sm, ic, idesc, icat, ar, m, pt, t, w⟩

/-- Four-row dataset with months Feb, Apr, May, Jun, used to
instantiate the month/quarter conflict rule. -/
def c1df : List Row :=
  [mkRow "C1" "Acme" "Retail" "Sam" "I1" "Pipe" "Tools" "North" .feb "Cash" 10 1,
   mkRow "C2" "Brill" "Retail" "Sam" "I2" "Rod" "Tools" "North" .apr "Cash" 20 2,
   mkRow "C3" "Core" "Retail" "Sam" "I3" "Bar" "Tools" "North" .may "Cash" 30 3,
   mkRow "C4" "Dune" "Retail" "Sam" "I4" "Nut" "Tools" "North" .jun "Cash" 40 4]

/-- Single-month dataset: one Jan row with value 100. -/
def c3df : List Row :=
  [mkRow "C1" "Acme" "Retail" "Sam" "I1" "Pipe" "Tools" "North" .jan "Cash" 100 1]

/-- Dataset where one customer pays Cash on one row and Credit on
another, so it is counted in both distinct-customer counts. -/
def c4bad : List Row :=
  [mkRow "C1" "Acme" "Retail" "Sam" "I1" "Pipe" "Tools" "North" .jan "Cash" 10 1,
   mkRow "C1" "Acme" "Retail" "Sam" "I2" "Rod" "Tools" "North" .feb "Credit" 20 2]

/-- Dataset with one Cash customer and one Credit customer. -/
def c4good : List Row :=
  [mkRow "C1" "Acme" "Retail" "Sam" "I1" "Pipe" "Tools" "North" .jan "Cash" 10 1,
   mkRow "C2" "Brill" "Retail" "Sam" "I2" "Rod" "Tools" "North" .jan "Credit" 20 2]

/-- Dataset with item categories A, B, C whose totals are 300, 100
and 200. -/
def c5df : List Row :=
  [mkRow "C1" "Acme" "Retail" "Sam" "I1" "Pipe" "A" "North" .jan "Cash" 300 1,
   mkRow "C2" "Brill" "Retail" "Sam" "I2" "Rod" "B" "North" .jan "Cash" 100 2,
   mkRow "C3" "Core" "Retail" "Sam" "I3" "Bar" "C" "North" .jan "Cash" 200 3]

/-- Two-month dataset with monthly totals 100 (Jan) and 50 (Feb). -/
def c6df : List Row :=
  [mkRow "C1" "Acme" "Retail" "Sam" "I1" "Pipe" "Tools" "North" .jan "Cash" 100 1,
   mkRow "C2" "Brill" "Retail" "Sam" "I2" "Rod" "Tools" "North" .feb "Cash" 50 2]

/-- One-row January dataset whose string fields contain no letter z,
so the search term "zzz" matches nothing and a February month
selection empties it. -/
def c7df : List Row :=
  [mkRow "C1" "Acme" "Retail" "Sam" "I1" "Pipe" "Tools" "North" .jan "Cash" 10 1]

/-- One-row dataset for exercising the invalid-regex path. -/
def c8df : List Row :=
  [mkRow "C1" "Acme" "Retail" "Sam" "I1" "Pipe" "Tools" "North" .jan "Cash" 10 1]

/-- Two-month dataset with monthly values [100, 150], the two-period
percent-change example. -/
def c3wdf : List Row :=
  [mkRow "C1" "Acme" "Retail" "Sam" "I1" "Pipe" "Tools" "North" .jan "Cash" 100 1,
   mkRow "C2" "Brill" "Retail" "Sam" "I2" "Rod" "Tools" "North" .feb "Cash" 150 2]

/-- Decidable equality for `Except`, so concrete pipeline outcomes can
be checked by evaluation. -/
instance {ε α : Type} [DecidableEq ε] [DecidableEq α] : DecidableEq (Except ε α) := fun a b =>
  match a, b with
  | .error e, .error f =>
      if h : e = f then .isTrue (congrArg Except.error h)
      else .isFalse (fun c => h (Except.error.inj c))
  | .error _, .ok _ => .isFalse (fun c => Except.noConfusion c)
  | .ok _, .error _ => .isFalse (fun c => Except.noConfusion c)
  | .ok x, .ok y =>
      if h : x = y then .isTrue (congrArg Except.ok h)
      else .isFalse (fun c => h (Except.ok.inj c))

/-- Union of the per-month customer sets over a list of months (the
value of the running `all_customers` set after processing those
months). -/
def unionCustomers (df : List Row) : List Month → Finset String
  | [] => ∅
  | m :: ms => monthCustomers df m ∪ unionCustomers df ms

/-- Helper lemma: summing the per-month novelty counts over a month
list equals the size of what the union of those months' customer sets
adds to the already-seen set. -/
theorem newCustomersAux_sum (df : List Row) (ms : List Month) :
    ∀ seen : Finset String,
      (newCustomersAux df ms seen).sum = ((unionCustomers df ms) \ seen).card := by
  induction ms with
  | nil => intro seen; simp [newCustomersAux, unionCustomers]
  | cons m ms ih =>
    intro seen
    have hset : (monthCustomers df m ∪ unionCustomers df ms) \ seen =
        (monthCustomers df m \ seen) ∪
          (unionCustomers df ms \ (seen ∪ monthCustomers df m)) := by
      ext x
      simp only [Finset.mem_sdiff, Finset.mem_union]
      tauto
    have hdisj : Disjoint (monthCustomers df m \ seen)
        (unionCustomers df ms \ (seen ∪ monthCustomers df m)) := by
      rw [Finset.disjoint_left]
      intro x hx hy
      rw [Finset.mem_sdiff] at hx hy
      exact hy.2 (Finset.mem_union_right _ hx.1)
    simp only [newCustomersAux, unionCustomers, List.sum_cons, ih, hset,
      Finset.card_union_of_disjoint hdisj]

/-- Helper lemma: every month value is one of the 12 canonical
months. -/
theorem mem_allMonths (m : Month) : m ∈ allMonths := by
  cases m <;> decide

/-- Helper lemma: the month of every row is among the months present
in the dataset. -/
theorem row_month_mem_uniqueMonths {df : List Row} {r : Row} (hr : r ∈ df) :
    r.month ∈ uniqueMonths df := by
  rw [uniqueMonths, List.mem_filter]
  refine ⟨mem_allMonths _, ?_⟩
  rw [List.any_eq_true]
  exact ⟨r, hr, by simp⟩

/-- Helper lemma: membership in the union of per-month customer
sets. -/
theorem mem_unionCustomers {df : List Row} {x : String} :
    ∀ {ms : List Month}, x ∈ unionCustomers df ms ↔ ∃ m ∈ ms, x ∈ monthCustomers df m := by
  intro ms
  induction ms with
  | nil => simp [unionCustomers]
  | cons m ms ih => simp [unionCustomers, ih]

/-- Helper lemma: the union over the months present is exactly the
distinct-customer set of the dataset. -/
theorem unionCustomers_uniqueMonths (df : List Row) :
    unionCustomers df (uniqueMonths df) = (df.map (fun r => r.customer_code)).toFinset := by
  ext x
  rw [mem_unionCustomers]
  constructor
  · rintro ⟨m, _, hx⟩
    rw [monthCustomers, List.mem_toFinset, List.mem_map] at hx
    obtain ⟨r, hr, rfl⟩ := hx
    rw [List.mem_toFinset, List.mem_map]
    exact ⟨r, List.mem_of_mem_filter hr, rfl⟩
  · intro hx
    rw [List.mem_toFinset, List.mem_map] at hx
    obtain ⟨r, hr, rfl⟩ := hx
    refine ⟨r.month, row_month_mem_uniqueMonths hr, ?_⟩
    rw [monthCustomers, List.mem_toFinset, List.mem_map]
    exact ⟨r, List.mem_filter.2 ⟨hr, by simp⟩, rfl⟩

/-- C2: for every filtered dataset, summing the per-period "New
Customers" counts over all periods present (processing periods in
calendar order, counting each customer only in the first period it
appears) equals the total number of distinct `customer_code` values in
the dataset. -/
theorem c2_new_customers_sum (df : List Row) :
    (newCustomers df).sum = totalCustomers df := by
  rw [newCustomers, newCustomersAux_sum, unionCustomers_uniqueMonths, totalCustomers,
    Finset.sdiff_empty]

/-- Helper lemma: the first components of a month's customer-item
pairs are that month's customers. -/
theorem image_fst_monthPairs (df : List Row) (m : Month) :
    Finset.image Prod.fst (monthPairs df m) ⊆ monthCustomers df m := by
  intro c hc
  rw [Finset.mem_image] at hc
  obtain ⟨⟨a, b⟩, hab, rfl⟩ := hc
  rw [monthPairs, List.mem_toFinset, List.mem_map] at hab
  obtain ⟨r, hr, heq⟩ := hab
  rw [monthCustomers, List.mem_toFinset, List.mem_map]
  exact ⟨r, hr, congrArg Prod.fst heq⟩

/-- Helper lemma: in one period, at least as many customer-item pairs
are new as customers, provided every already-seen pair's customer is
already seen. -/
theorem card_new_customers_le_new_pairs (df : List Row) (m : Month)
    (sc : Finset String) (sp : Finset (String × String))
    (hinv : Finset.image Prod.fst sp ⊆ sc) :
    (monthCustomers df m \ sc).card ≤ (monthPairs df m \ sp).card := by
  have hsub : monthCustomers df m \ sc ⊆
      Finset.image Prod.fst (monthPairs df m \ sp) := by
    intro c hc
    rw [Finset.mem_sdiff] at hc
    obtain ⟨hcm, hcsc⟩ := hc
    rw [monthCustomers, List.mem_toFinset, List.mem_map] at hcm
    obtain ⟨r, hr, rfl⟩ := hcm
    refine Finset.mem_image.2 ⟨(r.customer_code, r.item_code), ?_, rfl⟩
    rw [Finset.mem_sdiff]
    refine ⟨?_, fun hin => hcsc (hinv (Finset.mem_image_of_mem Prod.fst hin))⟩
    rw [monthPairs, List.mem_toFinset, List.mem_map]
    exact ⟨r, hr, rfl⟩
  calc (monthCustomers df m \ sc).card
      ≤ (Finset.image Prod.fst (monthPairs df m \ sp)).card := Finset.card_le_card hsub
    _ ≤ (monthPairs df m \ sp).card := Finset.card_image_le

/-- Helper lemma: the pointwise inequality between the two novelty
loops, for any month list and any pair of seen-sets whose pair
projection is covered by the seen customers. -/
theorem newCustomersAux_le_newlyListedAux (df : List Row) (ms : List Month) :
    ∀ (sc : Finset String) (sp : Finset (String × String)),
      Finset.image Prod.fst sp ⊆ sc →
      List.Forall₂ (· ≤ ·) (newCustomersAux df ms sc) (newlyListedAux df ms sp) := by
  induction ms with
  | nil =>
    intro sc sp _
    simp [newCustomersAux, newlyListedAux]
  | cons m ms ih =>
    intro sc sp hinv
    simp only [newCustomersAux, newlyListedAux]
    refine List.Forall₂.cons (card_new_customers_le_new_pairs df m sc sp hinv) (ih _ _ ?_)
    rw [Finset.image_union]
    exact Finset.union_subset_union hinv (image_fst_monthPairs df m)

/-- C10: for every filtered dataset, period by period (over the months
present, in calendar order) the "Newly Listed Items" count is at least
the "New Customers" count: each first-seen customer contributes a
first-seen (customer, item) pair of its own. -/
theorem c10_newly_listed_ge_new_customers (df : List Row) :
    List.Forall₂ (· ≤ ·) (newCustomers df) (newlyListed df) :=
  newCustomersAux_le_newlyListedAux df (uniqueMonths df) ∅ ∅ (by simp)

/-- C1: when both a month and a quarter are selected, the chain
filters by month alone with no warning if the month lies in the
quarter, and otherwise ignores the month, filters by the quarter's
three months and raises the warning; in particular Feb with Q2 keeps
the Apr/May/Jun rows with a warning, and May with Q2 keeps the May
rows with no warning. -/
theorem c1_month_quarter_conflict (df : List Row) (m : Month) (q : Quarter) :
    (m ∈ quarterMonths q →
        applyFilters df (selMQ (some m) (some q)) =
          (df.filter (fun r => r.month == m), false))
    ∧ (m ∉ quarterMonths q →
        applyFilters df (selMQ (some m) (some q)) =
          (df.filter (fun r => (quarterMonths q).contains r.month), true))
    ∧ applyFilters c1df (selMQ (some .feb) (some .q2)) =
        ([mkRow "C2" "Brill" "Retail" "Sam" "I2" "Rod" "Tools" "North" .apr "Cash" 20 2,
          mkRow "C3" "Core" "Retail" "Sam" "I3" "Bar" "Tools" "North" .may "Cash" 30 3,
          mkRow "C4" "Dune" "Retail" "Sam" "I4" "Nut" "Tools" "North" .jun "Cash" 40 4], true)
    ∧ applyFilters c1df (selMQ (some .may) (some .q2)) =
        ([mkRow "C3" "Core" "Retail" "Sam" "I3" "Bar" "Tools" "North" .may "Cash" 30 3], false) := by
  refine ⟨fun hm => ?_, fun hm => ?_, by decide, by decide⟩
  · have hc : (quarterMonths q).contains m = true := by simpa using hm
    simp [applyFilters, selMQ, monthQuarterFilter, hc]
    exact hm
  · have hc : (quarterMonths q).contains m = false := by simpa using hm
    simp [applyFilters, selMQ, monthQuarterFilter, hc]
    exact hm

/-- C1 witness: the consistent May/Q2 case on the sample dataset,
obtained from the general theorem. -/
theorem c1_month_quarter_conflict_witness :
    applyFilters c1df (selMQ (some .may) (some .q2)) =
      (c1df.filter (fun r => r.month == Month.may), false) :=
  (c1_month_quarter_conflict c1df .may .q2).1 (by decide)

/-- C5: every key-by-month pivot is rendered with rows sorted
ascending by each row's total across the months present, the sorted
key list being a permutation of the pivot's key set; categories with
totals A 300, B 100, C 200 are ordered [B, C, A]. -/
theorem c5_pivot_row_order (df : List Row) (key : Row → String) (v : Row → ℚ) :
    List.Sorted (fun a b => rowTotal df key v a ≤ rowTotal df key v b) (pivotOrder df key v)
    ∧ (pivotOrder df key v).Perm (pivotKeys df key)
    ∧ pivotOrder c5df (fun r => r.item_category) (fun r => r.total) = ["B", "C", "A"] := by
  refine ⟨?_, List.perm_insertionSort _ _, ?_⟩
  · haveI : IsTotal String (fun a b => rowTotal df key v a ≤ rowTotal df key v b) :=
      ⟨fun a b => le_total _ _⟩
    haveI : IsTrans String (fun a b => rowTotal df key v a ≤ rowTotal df key v b) :=
      ⟨fun a b c hab hbc => le_trans hab hbc⟩
    exact List.sorted_insertionSort _ _
  · have hk : pivotKeys c5df (fun r => r.item_category) = ["A", "B", "C"] := by decide
    have hA : rowTotal c5df (fun r => r.item_category) (fun r => r.total) "A" = 300 := by
      simp +decide [rowTotal, sumWhere, c5df, mkRow, List.filter_cons]
    have hB : rowTotal c5df (fun r => r.item_category) (fun r => r.total) "B" = 100 := by
      simp +decide [rowTotal, sumWhere, c5df, mkRow, List.filter_cons]
    have hC : rowTotal c5df (fun r => r.item_category) (fun r => r.total) "C" = 200 := by
      simp +decide [rowTotal, sumWhere, c5df, mkRow, List.filter_cons]
    simp only [pivotOrder, hk]
    norm_num [List.insertionSort, List.orderedInsert, hA, hB, hC]

/-- C9: re-running the groupings and pivots with main variable
`weight` in place of `total` (or any two choices of numeric column)
leaves every grouping's key membership identical - equal key lists for
the direct groupings, and permuted-only key lists for the two
orderings that sort by the main variable's magnitudes. -/
theorem c9_grouping_membership (df : List Row) (v w : Row → ℚ) :
    (salesByArea df v).map Prod.fst = (salesByArea df w).map Prod.fst
    ∧ (salesByMonth df v).map Prod.fst = (salesByMonth df w).map Prod.fst
    ∧ (salesByQuarter df v).map Prod.fst = (salesByQuarter df w).map Prod.fst
    ∧ (salesBySalesmanArea df v).map Prod.fst = (salesBySalesmanArea df w).map Prod.fst
    ∧ (salesmanOrder df v).Perm (salesmanOrder df w)
    ∧ (pivotOrder df (fun r => r.item_category) v).Perm
        (pivotOrder df (fun r => r.item_category) w)
    ∧ (pivotOrder df (fun r => r.item_description) v).Perm
        (pivotOrder df (fun r => r.item_description) w)
    ∧ (pivotOrder df (fun r => r.customer_name) v).Perm
        (pivotOrder df (fun r => r.customer_name) w) := by
  refine ⟨?_, ?_, ?_, ?_, ?_, ?_, ?_, ?_⟩
  · simp [salesByArea, List.map_map, Function.comp]
  · simp [salesByMonth, List.map_map, Function.comp]
  · simp [salesByQuarter, List.map_map, Function.comp]
  · simp [salesBySalesmanArea, List.map_map, Function.comp]
  · exact (List.perm_insertionSort _ _).trans (List.perm_insertionSort _ _).symm
  · exact (List.perm_insertionSort _ _).trans (List.perm_insertionSort _ _).symm
  · exact (List.perm_insertionSort _ _).trans (List.perm_insertionSort _ _).symm
  · exact (List.perm_insertionSort _ _).trans (List.perm_insertionSort _ _).symm

/-- Helper lemma: entry `i` of the pct-change tail is the step from
entry `i` to entry `i + 1` of the underlying series. -/
theorem pctChangeGo_get (rest : List ℚ) :
    ∀ (prev : ℚ) (i : Nat) (p c : ℚ),
      (prev :: rest)[i]? = some p → (prev :: rest)[i + 1]? = some c →
      (pctChangeGo prev rest)[i]? = some (pctStep p c) := by
  induction rest with
  | nil =>
    intro prev i p c _ hc
    rw [List.getElem?_cons_succ] at hc
    simp at hc
  | cons v rest ih =>
    intro prev i p c hp hc
    cases i with
    | zero =>
      rw [List.getElem?_cons_zero] at hp
      rw [List.getElem?_cons_succ, List.getElem?_cons_zero] at hc
      obtain rfl : prev = p := by injection hp
      obtain rfl : v = c := by injection hc
      simp [pctChangeGo]
    | succ j =>
      rw [List.getElem?_cons_succ] at hp hc
      simp only [pctChangeGo, List.getElem?_cons_succ]
      exact ih v j p c hp hc

/-- Helper lemma: the first `M.Change%` cell of a multi-row table is
blank. -/
theorem mChangeCol_first (vs : List ℚ) (h1 : 1 < vs.length) :
    (mChangeCol vs)[0]? = some PctCell.blank := by
  rw [mChangeCol, if_pos h1]
  cases vs with
  | nil => simp at h1
  | cons v0 rest => simp [pctChangeList]

/-- Helper lemma: later `M.Change%` cells of a multi-row table are the
pct-change step from the previous entry. -/
theorem mChangeCol_get_succ (vs : List ℚ) (i : Nat) (p c : ℚ)
    (hp : vs[i]? = some p) (hc : vs[i + 1]? = some c) :
    (mChangeCol vs)[i + 1]? = some (pctStep p c) := by
  have hlen : i + 1 < vs.length := (List.getElem?_eq_some.mp hc).1
  have h1 : 1 < vs.length := lt_of_le_of_lt (Nat.succ_le_succ (Nat.zero_le i)) hlen
  rw [mChangeCol, if_pos h1]
  cases vs with
  | nil => simp at hc
  | cons v0 rest =>
    simp only [pctChangeList, List.getElem?_cons_succ]
    exact pctChangeGo_get rest v0 i p c hp hc

/-- Helper lemma: a one-row table's `M.Change%` column is the single
cell 0. -/
theorem mChangeCol_single (vs : List ℚ) (h : vs.length = 1) :
    mChangeCol vs = [PctCell.val 0] := by
  obtain ⟨x, rfl⟩ := List.length_eq_one.mp h
  simp [mChangeCol]

/-- C3 counterexample: on a single-period dataset the code assigns the
scalar 0 to `M.Change%` (line 490), so the only row carries the value
0 and not the blank the claim requires. -/
theorem c3_counterexample :
    mChangeCol (monthlySales c3df (fun r => r.total)) = [PctCell.val 0]
    ∧ PctCell.val 0 ≠ PctCell.blank := by
  constructor
  · have h : monthlySales c3df (fun r => r.total) = [100] := by
      simp +decide [monthlySales, uniqueMonths, allMonths, c3df, mkRow, sumWhere,
        List.filter_cons]
    rw [h]
    decide
  · decide

/-- C3 (amended): in the Monthly KPI table, the percent-change of row
i equals (value[i] - value[i-1]) / value[i-1] * 100 against the
preceding period and the first row of a multi-period table is blank;
however a single-period table carries the value 0 (not blank) in its
only row, and a zero previous value yields an infinite value ((+inf)
when the current value is positive), not a blank cell. -/
theorem c3_percent_change (df : List Row) (v : Row → ℚ) :
    (1 < (monthlySales df v).length →
        (mChangeCol (monthlySales df v))[0]? = some PctCell.blank)
    ∧ (∀ i p c, (monthlySales df v)[i]? = some p →
        (monthlySales df v)[i + 1]? = some c → p ≠ 0 →
        (mChangeCol (monthlySales df v))[i + 1]? =
          some (PctCell.val ((c - p) / p * 100)))
    ∧ ((monthlySales df v).length = 1 →
        mChangeCol (monthlySales df v) = [PctCell.val 0])
    ∧ (∀ i p c, (monthlySales df v)[i]? = some p →
        (monthlySales df v)[i + 1]? = some c → p = 0 → 0 < c →
        (mChangeCol (monthlySales df v))[i + 1]? = some PctCell.posInf) := by
  refine ⟨mChangeCol_first _, fun i p c hp hc hne => ?_, mChangeCol_single _,
    fun i p c hp hc hz hpos => ?_⟩
  · rw [mChangeCol_get_succ _ i p c hp hc]
    simp [pctStep, hne]
  · rw [mChangeCol_get_succ _ i p c hp hc]
    simp [pctStep, hz, hpos]

/-- C3 witness: for monthly values [100, 150] the second row's
percent-change is exactly 50, by the amended theorem. -/
theorem c3_percent_change_witness :
    (mChangeCol (monthlySales c3wdf (fun r => r.total)))[1]? =
      some (PctCell.val 50) := by
  have h : monthlySales c3wdf (fun r => r.total) = [100, 150] := by
    simp +decide [monthlySales, uniqueMonths, allMonths, c3wdf, mkRow, sumWhere,
      List.filter_cons]
  have hmain := (c3_percent_change c3wdf (fun r => r.total)).2.1 0 100 150
    (by rw [h]; rfl) (by rw [h]; rfl) (by norm_num)
  norm_num at hmain
  exact hmain

/-- Helper lemma: filtering can only shrink the distinct-customer
set. -/
theorem custSet_filter_subset (df : List Row) (p : Row → Bool) :
    ((df.filter p).map (fun r => r.customer_code)).toFinset ⊆
      (df.map (fun r => r.customer_code)).toFinset := by
  intro x hx
  rw [List.mem_toFinset, List.mem_map] at hx ⊢
  obtain ⟨r, hr, rfl⟩ := hx
  exact ⟨r, List.mem_of_mem_filter hr, rfl⟩

/-- Helper lemma: when every row's payment type is Cash or Credit and
each customer's rows all share one payment type, the Cash and Credit
distinct-customer counts partition the total. -/
theorem cash_credit_partition (df : List Row)
    (hone : ∀ r ∈ df, r.payment_type = "Cash" ∨ r.payment_type = "Credit")
    (huniq : ∀ r ∈ df, ∀ s ∈ df, r.customer_code = s.customer_code →
        r.payment_type = s.payment_type) :
    cashCustomers df + creditCustomers df = totalCustomers df := by
  have hunion :
      ((df.filter (fun r => r.payment_type == "Cash")).map (fun r => r.customer_code)).toFinset ∪
        ((df.filter (fun r => r.payment_type == "Credit")).map (fun r => r.customer_code)).toFinset =
        (df.map (fun r => r.customer_code)).toFinset := by
    apply Finset.Subset.antisymm
      (Finset.union_subset (custSet_filter_subset df _) (custSet_filter_subset df _))
    intro x hx
    rw [List.mem_toFinset, List.mem_map] at hx
    obtain ⟨r, hr, rfl⟩ := hx
    rcases hone r hr with hpt | hpt
    · apply Finset.mem_union_left
      rw [List.mem_toFinset, List.mem_map]
      exact ⟨r, List.mem_filter.2 ⟨hr, by simp [hpt]⟩, rfl⟩
    · apply Finset.mem_union_right
      rw [List.mem_toFinset, List.mem_map]
      exact ⟨r, List.mem_filter.2 ⟨hr, by simp [hpt]⟩, rfl⟩
  have hdisj : Disjoint
      ((df.filter (fun r => r.payment_type == "Cash")).map (fun r => r.customer_code)).toFinset
      ((df.filter (fun r => r.payment_type == "Credit")).map (fun r => r.customer_code)).toFinset := by
    rw [Finset.disjoint_left]
    intro x hx hy
    rw [List.mem_toFinset, List.mem_map] at hx hy
    obtain ⟨r, hr, hrx⟩ := hx
    obtain ⟨s, hs, hsx⟩ := hy
    have hr2 := List.mem_filter.mp hr
    have hs2 := List.mem_filter.mp hs
    have hpt := huniq r hr2.1 s hs2.1 (hrx.trans hsx.symm)
    have hrc : r.payment_type = "Cash" := by simpa using hr2.2
    have hsc : s.payment_type = "Credit" := by simpa using hs2.2
    rw [hrc, hsc] at hpt
    exact absurd hpt (by decide)
  calc cashCustomers df + creditCustomers df
      = (((df.filter (fun r => r.payment_type == "Cash")).map (fun r => r.customer_code)).toFinset ∪
          ((df.filter (fun r => r.payment_type == "Credit")).map (fun r => r.customer_code)).toFinset).card :=
        (Finset.card_union_of_disjoint hdisj).symm
    _ = totalCustomers df := by rw [hunion]; rfl

/-- C4 counterexample: a single customer paying Cash on one row and
Credit on another is counted in both distinct-customer counts, so with
one distinct customer the two fractions are each 1 and sum to 2, not
1. -/
theorem c4_counterexample :
    0 < totalCustomers c4bad
    ∧ cashPercentage c4bad + creditPercentage c4bad = 2
    ∧ cashPercentage c4bad + creditPercentage c4bad ≠ 1 := by
  have h1 : totalCustomers c4bad = 1 := by decide
  have h2 : cashCustomers c4bad = 1 := by decide
  have h3 : creditCustomers c4bad = 1 := by decide
  have hsum : cashPercentage c4bad + creditPercentage c4bad = 2 := by
    simp only [cashPercentage, creditPercentage, paymentSummary, h1, h2, h3]
    norm_num
  exact ⟨by decide, hsum, by rw [hsum]; norm_num⟩

/-- C4 (amended): provided every row's payment type is Cash or Credit
and no customer appears with two different payment types, the Cash and
Credit fractions sum to exactly 1 whenever there is at least one
distinct customer, and both fractions are exactly 0 when there are
none. -/
theorem c4_payment_fractions (df : List Row)
    (hone : ∀ r ∈ df, r.payment_type = "Cash" ∨ r.payment_type = "Credit")
    (huniq : ∀ r ∈ df, ∀ s ∈ df, r.customer_code = s.customer_code →
        r.payment_type = s.payment_type) :
    (0 < totalCustomers df → cashPercentage df + creditPercentage df = 1)
    ∧ (totalCustomers df = 0 → cashPercentage df = 0 ∧ creditPercentage df = 0) := by
  constructor
  · intro ht
    have hsum := cash_credit_partition df hone huniq
    simp only [cashPercentage, creditPercentage, paymentSummary, if_pos ht]
    rw [div_add_div_same]
    have hcast : (cashCustomers df : ℚ) + creditCustomers df = totalCustomers df := by
      exact_mod_cast hsum
    rw [hcast, div_self]
    exact Nat.cast_ne_zero.2 (Nat.pos_iff_ne_zero.mp ht)
  · intro ht
    simp [cashPercentage, creditPercentage, paymentSummary, ht]

/-- C4 witness: on a dataset with one Cash customer and one Credit
customer the two fractions sum to 1, by the amended theorem. -/
theorem c4_payment_fractions_witness :
    cashPercentage c4good + creditPercentage c4good = 1 :=
  (c4_payment_fractions c4good (by decide) (by decide)).1 (by decide)

/-- Helper lemma: running sums have the length of the input. -/
theorem cumsumFrom_length (vs : List ℚ) : ∀ acc, (cumsumFrom acc vs).length = vs.length := by
  induction vs with
  | nil => intro acc; rfl
  | cons v rest ih => intro acc; simp [cumsumFrom, ih]

/-- Helper lemma: entry `i` of the running sums is the accumulator
plus the sum of the first `i + 1` entries. -/
theorem cumsumFrom_get (vs : List ℚ) :
    ∀ (acc : ℚ) (i : Nat), i < vs.length →
      (cumsumFrom acc vs)[i]? = some (acc + (vs.take (i + 1)).sum) := by
  induction vs with
  | nil => intro acc i hi; simp at hi
  | cons v rest ih =>
    intro acc i hi
    cases i with
    | zero => simp [cumsumFrom]
    | succ j =>
      simp only [cumsumFrom, List.getElem?_cons_succ]
      rw [ih (acc + v) j (Nat.lt_of_succ_lt_succ hi)]
      simp [add_assoc]

/-- C6: for each KPI row, `Progress%` is the cumulative sum of the
main variable through that row divided by 1.5 times the grand total,
as a percentage, whenever the grand total is positive; and it is 0 in
every row when the grand total is 0. -/
theorem c6_progress (df : List Row) (v : Row → ℚ) (i : Nat)
    (hi : i < (monthlySales df v).length) :
    (0 < (monthlySales df v).sum →
        (progressCol (monthlySales df v))[i]? =
          some (((monthlySales df v).take (i + 1)).sum /
            ((monthlySales df v).sum * (3 / 2)) * 100))
    ∧ ((monthlySales df v).sum = 0 →
        (progressCol (monthlySales df v))[i]? = some 0) := by
  constructor
  · intro hpos
    simp only [progressCol, cumsum, if_pos hpos]
    rw [List.getElem?_map, cumsumFrom_get _ 0 i hi]
    simp
  · intro hz
    have hneg : ¬ 0 < (monthlySales df v).sum := by
      rw [hz]
      exact lt_irrefl 0
    simp only [progressCol, cumsum, if_neg hneg]
    rw [List.getElem?_map, List.getElem?_eq_getElem hi]
    rfl

/-- C6 witness: on the two-month dataset with values [100, 50] the
first row's progress is 100 / (150 * 1.5) * 100, by the theorem. -/
theorem c6_progress_witness :
    (progressCol (monthlySales c6df (fun r => r.total)))[0]? =
      some ((100 : ℚ) / (150 * (3 / 2)) * 100) := by
  have h : monthlySales c6df (fun r => r.total) = [100, 50] := by
    simp +decide [monthlySales, uniqueMonths, allMonths, c6df, mkRow, sumWhere,
      List.filter_cons]
  have hmain := (c6_progress c6df (fun r => r.total) 0 (by rw [h]; decide)).1
    (by rw [h]; norm_num)
  rw [h] at hmain ⊢
  norm_num at hmain ⊢
  exact hmain

/-- C7: a search that matches zero rows and an attribute selection
that empties a non-empty search result produce the same return value
`(None, False)`, so the caller cannot distinguish the two "no data"
states (the filter-miss branch of the caller at lines 569-570 is
unreachable). -/
theorem c7_no_data_signals :
    filterPipeline c7df noSelections "zzz" = Except.ok (none, false)
    ∧ filterPipeline c7df (selMQ (some .feb) none) "" = Except.ok (none, false) := by
  constructor
  · decide
  · decide

/-- C8 counterexample: with the invalid pattern "(" the master filter
raises the pattern-compilation error out of the function instead of
returning a literal-containment subset. -/
theorem c8_counterexample :
    applyMasterFilter c8df "(" = Except.error "missing ), unterminated subpattern" := by
  decide

/-- C8 (amended): for every dataset and every non-empty search string
whose lower-cased form fails to compile as a regex, `apply_master_filter`
propagates the compilation error to its caller (where the top-level
handler reports it as an error) rather than falling back to literal
substring containment. -/
theorem c8_invalid_regex (df : List Row) (term : String) (e : String)
    (hne : term ≠ "") (hp : compileRegex (strLower term) = .error e) :
    applyMasterFilter df term = .error e := by
  simp only [applyMasterFilter, if_neg hne, hp]

/-- C8 witness: the invalid pattern "ab(" propagates its compilation
error, by the amended theorem. -/
theorem c8_invalid_regex_witness :
    applyMasterFilter c7df "ab(" = Except.error "missing ), unterminated subpattern" :=
  c8_invalid_regex c7df "ab(" _ (by decide) (by decide)
